import Mathlib

/-!
Verification development for the Gleeam article-automation pipeline.

Texts are modelled as `List Char` (one entry per code point).  Each
definition below is a shallow embedding of one JavaScript function of the
repository; the source file and function are named in its doc comment.
Network calls (completion API, search, database) are modelled as explicit
oracles passed to the embedded functions, and `Math.random` as an explicit
stream of boolean draws.
-/

/-- Whitespace test matching the JavaScript `trim` notion on the characters
that occur in this code base (space, tab, newline, carriage return, form
feed, vertical tab). -/
def jsWhitespace (c : Char) : Bool :=
  c = ' ' || c = '\t' || c = '\n' || c = '\r' || c = '\x0c' || c = '\x0b'

/-- Embedding of JavaScript `String.prototype.trim`: drop whitespace from
both ends of the text. -/
def jsTrim (l : List Char) : List Char :=
  ((l.dropWhile jsWhitespace).reverse.dropWhile jsWhitespace).reverse

/-- Lower-casing of a single character: ASCII letters plus the accented
Latin letters that occur in the French pattern strings of the repository.
Models `String.prototype.toLowerCase` on the alphabet the code uses. -/
def charLower (c : Char) : Char :=
  if 'A' ≤ c ∧ c ≤ 'Z' then Char.ofNat (c.toNat + 32)
  else if c = 'À' then 'à' else if c = 'Â' then 'â' else if c = 'Ä' then 'ä'
  else if c = 'Ç' then 'ç' else if c = 'É' then 'é' else if c = 'È' then 'è'
  else if c = 'Ê' then 'ê' else if c = 'Ë' then 'ë' else if c = 'Î' then 'î'
  else if c = 'Ï' then 'ï' else if c = 'Ô' then 'ô' else if c = 'Ö' then 'ö'
  else if c = 'Ù' then 'ù' else if c = 'Û' then 'û' else if c = 'Ü' then 'ü'
  else c

/-- Lower-case a whole text (JavaScript `toLowerCase`). -/
def strLower (l : List Char) : List Char := l.map charLower

/-- State of the character scan inside `repairTruncatedJSON`
(src/src/services/openai.js, lines 225-263): the running count of open
braces and brackets, whether the cursor is inside a string literal, and
whether the previous character was an unconsumed backslash. -/
structure ScanState where
  braces : Int
  brackets : Int
  inString : Bool
  escaped : Bool
  deriving Repr, DecidableEq

/-- One step of the scan loop of `repairTruncatedJSON`, in the exact order
of the JavaScript conditionals: a pending escape consumes the character;
a backslash arms the escape; a quote toggles the in-string flag; characters
inside a string are ignored; outside a string the four delimiters adjust
the depth counters. -/
def scanStep (st : ScanState) (c : Char) : ScanState :=
  if st.escaped then { st with escaped := false }
  else if c = '\\' then { st with escaped := true }
  else if c = '"' then { st with inString := !st.inString }
  else if st.inString then st
  else if c = '\x7b' then { st with braces := st.braces + 1 }
  else if c = '\x7d' then { st with braces := st.braces - 1 }
  else if c = '[' then { st with brackets := st.brackets + 1 }
  else if c = ']' then { st with brackets := st.brackets - 1 }
  else st

/-- Scan a whole text from the initial state, as the `for...of` loop of
`repairTruncatedJSON` does. -/
def scanJSON (l : List Char) : ScanState :=
  l.foldl scanStep ⟨0, 0, false, false⟩

/-- Embedding of `repairTruncatedJSON` (src/src/services/openai.js,
lines 225-263): trim the content, scan it, then append a closing quote if
a string is open, one `]` for every unmatched `[`, and finally one closing
brace for every unmatched open brace.  Note the JavaScript closes ALL
brackets first (`while (brackets > 0)`) and ALL braces second
(`while (braces > 0)`), regardless of how the open containers nest. -/
def repairTruncatedJSON (content : List Char) : List Char :=
  let json := jsTrim content
  let st := scanJSON json
  json ++ (if st.inString then ['"'] else [])
       ++ List.replicate st.brackets.toNat ']'
       ++ List.replicate st.braces.toNat '\x7d'

/-- JSON values, as produced by a successful `JSON.parse`.  Numbers keep
their raw lexeme: the repository only ever asks whether parsing succeeds,
never for numeric arithmetic. -/
inductive Json where
  | null : Json
  | bool (b : Bool) : Json
  | num (raw : List Char) : Json
  | str (s : List Char) : Json
  | arr (elems : List Json) : Json
  | obj (members : List (List Char × Json)) : Json

/-- Whitespace accepted between JSON tokens (ECMA-404, as implemented by
`JSON.parse`). -/
def jsonWs (c : Char) : Bool :=
  c = ' ' || c = '\t' || c = '\n' || c = '\r'

/-- Skip inter-token whitespace. -/
def skipWs (l : List Char) : List Char := l.dropWhile jsonWs

/-- Value of a hexadecimal digit, if the character is one. -/
def hexDigit (c : Char) : Option Nat :=
  if '0' ≤ c ∧ c ≤ '9' then some (c.toNat - '0'.toNat)
  else if 'a' ≤ c ∧ c ≤ 'f' then some (c.toNat - 'a'.toNat + 10)
  else if 'A' ≤ c ∧ c ≤ 'F' then some (c.toNat - 'A'.toNat + 10)
  else none

/-- Decimal digit test. -/
def isDigit (c : Char) : Bool := '0' ≤ c && c ≤ '9'

/-- Parse the body of a JSON string literal, the opening quote already
consumed; returns the decoded characters and the rest of the input.  The
fuel argument bounds the recursion; one unit is spent per consumed
character, so any fuel above the input length is enough. -/
def parseStringBody : Nat → List Char → Option (List Char × List Char)
  | 0, _ => none
  | _ + 1, [] => none
  | _ + 1, '"' :: rest => some ([], rest)
  | fuel + 1, '\\' :: esc => match esc with
    | '"' :: rest => (parseStringBody fuel rest).map (fun p => ('"' :: p.1, p.2))
    | '\\' :: rest => (parseStringBody fuel rest).map (fun p => ('\\' :: p.1, p.2))
    | '/' :: rest => (parseStringBody fuel rest).map (fun p => ('/' :: p.1, p.2))
    | 'b' :: rest => (parseStringBody fuel rest).map (fun p => ('\x08' :: p.1, p.2))
    | 'f' :: rest => (parseStringBody fuel rest).map (fun p => ('\x0c' :: p.1, p.2))
    | 'n' :: rest => (parseStringBody fuel rest).map (fun p => ('\n' :: p.1, p.2))
    | 'r' :: rest => (parseStringBody fuel rest).map (fun p => ('\r' :: p.1, p.2))
    | 't' :: rest => (parseStringBody fuel rest).map (fun p => ('\t' :: p.1, p.2))
    | 'u' :: h1 :: h2 :: h3 :: h4 :: rest =>
      match hexDigit h1, hexDigit h2, hexDigit h3, hexDigit h4 with
      | some a, some b, some c, some d =>
        (parseStringBody fuel rest).map
          (fun p => (Char.ofNat (((a * 16 + b) * 16 + c) * 16 + d) :: p.1, p.2))
      | _, _, _, _ => none
    | _ => none
  | fuel + 1, c :: rest =>
    if c.toNat < 32 then none
    else (parseStringBody fuel rest).map (fun p => (c :: p.1, p.2))

/-- Parse a JSON number lexeme (`-? (0 | [1-9][0-9]*) frac? exp?`),
returning its raw characters and the rest of the input. -/
def parseNumber (l : List Char) : Option (Json × List Char) :=
  let (sign, l1) := match l with
    | '-' :: rest => (['-'], rest)
    | _ => (([] : List Char), l)
  match l1 with
  | c :: rest =>
    if c = '0' then
      let (fracExp, l2) := numTail rest
      some (Json.num (sign ++ [c] ++ fracExp), l2)
    else if isDigit c then
      let (more, l15) := rest.span isDigit
      let (fracExp, l2) := numTail l15
      some (Json.num (sign ++ [c] ++ more ++ fracExp), l2)
    else none
  | [] => none
where
  /-- Optional fraction and exponent parts after the integer part;
  returns the consumed characters (empty when absent or ill-formed, in
  which case nothing is consumed) and the rest. -/
  numTail (l : List Char) : List Char × List Char :=
    let (frac, l1) := match l with
      | '.' :: rest =>
        let (ds, r) := rest.span isDigit
        if ds = [] then (([] : List Char), l) else ('.' :: ds, r)
      | _ => ([], l)
    match l1 with
    | e :: rest =>
      if e = 'e' ∨ e = 'E' then
        let (sgn, r1) := match rest with
          | '+' :: r => (['+'], r)
          | '-' :: r => (['-'], r)
          | _ => (([] : List Char), rest)
        let (ds, r2) := r1.span isDigit
        if ds = [] then (frac, l1) else (frac ++ [e] ++ sgn ++ ds, r2)
      else (frac, l1)
    | [] => (frac, l1)

mutual

/-- Parse one JSON value after skipping leading whitespace.  Fuel bounds
the recursion depth; every recursive call consumes at least one character
first, so `4 * length + 8` fuel (used by `parseJson`) is always enough. -/
def parseValue : Nat → List Char → Option (Json × List Char)
  | 0, _ => none
  | fuel + 1, l =>
    match skipWs l with
    | '\x7b' :: rest => parseObjBody fuel rest
    | '[' :: rest => parseArrBody fuel rest
    | '"' :: rest => (parseStringBody (rest.length + 1) rest).map
        (fun p => (Json.str p.1, p.2))
    | 't' :: rest =>
      if rest.take 3 = ['r', 'u', 'e'] then some (Json.bool true, rest.drop 3) else none
    | 'f' :: rest =>
      if rest.take 4 = ['a', 'l', 's', 'e'] then some (Json.bool false, rest.drop 4) else none
    | 'n' :: rest =>
      if rest.take 3 = ['u', 'l', 'l'] then some (Json.null, rest.drop 3) else none
    | l1 => parseNumber l1

/-- Parse the inside of an array, the `[` already consumed. -/
def parseArrBody : Nat → List Char → Option (Json × List Char)
  | 0, _ => none
  | fuel + 1, l =>
    match skipWs l with
    | ']' :: rest => some (Json.arr [], rest)
    | _ => parseElems fuel l []

/-- Parse the comma-separated elements of a non-empty array. -/
def parseElems : Nat → List Char → List Json → Option (Json × List Char)
  | 0, _, _ => none
  | fuel + 1, l, acc =>
    match parseValue fuel l with
    | none => none
    | some (v, rest) =>
      match skipWs rest with
      | ',' :: r2 => parseElems fuel r2 (v :: acc)
      | ']' :: r2 => some (Json.arr (v :: acc).reverse, r2)
      | _ => none

/-- Parse the inside of an object, the opening brace already consumed. -/
def parseObjBody : Nat → List Char → Option (Json × List Char)
  | 0, _ => none
  | fuel + 1, l =>
    match skipWs l with
    | '\x7d' :: rest => some (Json.obj [], rest)
    | _ => parseMembers fuel l []

/-- Parse the comma-separated `"key": value` members of a non-empty
object. -/
def parseMembers : Nat → List Char → List (List Char × Json) → Option (Json × List Char)
  | 0, _, _ => none
  | fuel + 1, l, acc =>
    match skipWs l with
    | '"' :: r1 =>
      match parseStringBody (r1.length + 1) r1 with
      | none => none
      | some (key, r2) =>
        match skipWs r2 with
        | ':' :: r3 =>
          match parseValue fuel r3 with
          | none => none
          | some (v, r4) =>
            match skipWs r4 with
            | ',' :: r5 => parseMembers fuel r5 ((key, v) :: acc)
            | '\x7d' :: r5 => some (Json.obj ((key, v) :: acc).reverse, r5)
            | _ => none
        | _ => none
    | _ => none

end

/-- Embedding of `JSON.parse` at the precision the repository needs:
`parseJson l` is `some` exactly when `JSON.parse` succeeds on the text,
and the whole input (up to trailing whitespace) must be consumed. -/
def parseJson (l : List Char) : Option Json :=
  match parseValue (4 * l.length + 8) l with
  | some (v, rest) => if skipWs rest = [] then some v else none
  | none => none

/-- Scanning a concatenation continues the fold from the prefix state. -/
theorem scanJSON_append (a b : List Char) :
    scanJSON (a ++ b) = b.foldl scanStep (scanJSON a) := by
  simp [scanJSON, List.foldl_append]

/-- Outside a string with no pending escape, a run of `]` characters
only decrements the bracket counter. -/
theorem foldl_scanStep_close_brackets (n : Nat) (st : ScanState)
    (hs : st.inString = false) (he : st.escaped = false) :
    List.foldl scanStep st (List.replicate n ']') =
      { st with brackets := st.brackets - n } := by
  induction n generalizing st with
  | zero => simp
  | succ n ih =>
    rw [List.replicate_succ, List.foldl_cons]
    have hstep : scanStep st ']' = { st with brackets := st.brackets - 1 } := by
      simp [scanStep, hs, he]
    rw [hstep]
    have h2 := ih { st with brackets := st.brackets - 1 } hs he
    rw [h2]
    simp [sub_sub]
    ring

/-- Outside a string with no pending escape, a run of closing braces only
decrements the brace counter. -/
theorem foldl_scanStep_close_braces (n : Nat) (st : ScanState)
    (hs : st.inString = false) (he : st.escaped = false) :
    List.foldl scanStep st (List.replicate n '\x7d') =
      { st with braces := st.braces - n } := by
  induction n generalizing st with
  | zero => simp
  | succ n ih =>
    rw [List.replicate_succ, List.foldl_cons]
    have hstep : scanStep st '\x7d' = { st with braces := st.braces - 1 } := by
      simp [scanStep, hs, he]
    rw [hstep]
    have h2 := ih { st with braces := st.braces - 1 } hs he
    rw [h2]
    simp [sub_sub]
    ring

/-- Claim C1, counterexample.  The well-formed JSON text `[{"a":1}]`
truncated after 7 characters (mid-object, mid-array) is repaired by
`repairTruncatedJSON` to `[{"a":1]}` — the bracket is closed before the
brace although the object is nested inside the array — and the repaired
text does NOT parse, contradicting the claim that the repair closes open
containers in the correct nesting order and always yields a parseable
string. -/
theorem repairTruncatedJSON_not_parseable_counterexample :
    (parseJson (String.toList ("[\x7b\"a\":1\x7d]"))).isSome = true ∧
    (String.toList ("[\x7b\"a\":1\x7d]")).take 7 = String.toList ("[\x7b\"a\":1") ∧
    repairTruncatedJSON (String.toList ("[\x7b\"a\":1")) =
      String.toList ("[\x7b\"a\":1]\x7d") ∧
    (parseJson (repairTruncatedJSON (String.toList ("[\x7b\"a\":1")))).isNone = true := by
  refine ⟨by decide, by decide, by decide, by decide⟩

/-- Claim C1, amended.  `repairTruncatedJSON` closes an open string with a
quote and then appends one `]` for every unmatched `[` followed by one
closing brace for every unmatched open brace — all array closers before
all object closers, irrespective of nesting order, so the result is not
guaranteed to parse.  What does hold is delimiter balance: whenever the
truncated text has no unmatched closing delimiters and does not end in the
middle of a backslash escape, the repaired text ends outside any string
with both depth counters back at zero. -/
theorem repairTruncatedJSON_balanced (content : List Char)
    (hbr : 0 ≤ (scanJSON (jsTrim content)).braces)
    (hbk : 0 ≤ (scanJSON (jsTrim content)).brackets)
    (he : (scanJSON (jsTrim content)).escaped = false) :
    (scanJSON (repairTruncatedJSON content)).braces = 0 ∧
    (scanJSON (repairTruncatedJSON content)).brackets = 0 ∧
    (scanJSON (repairTruncatedJSON content)).inString = false := by
  set st := scanJSON (jsTrim content) with hst
  have hrepair : repairTruncatedJSON content =
      jsTrim content ++ ((if st.inString then ['"'] else [])
        ++ List.replicate st.brackets.toNat ']'
        ++ List.replicate st.braces.toNat '\x7d') := by
    simp [repairTruncatedJSON, ← hst, List.append_assoc]
  rw [hrepair, scanJSON_append, ← hst]
  have hmid : List.foldl scanStep st (if st.inString then ['"'] else []) =
      { st with inString := false } := by
    by_cases h : st.inString
    · simp [h, scanStep, he]
    · simp only [h, Bool.false_eq_true, if_false, List.foldl_nil]
      simp only [Bool.not_eq_true] at h
      conv_rhs => rw [← h]
  rw [List.foldl_append, List.foldl_append, hmid,
    foldl_scanStep_close_brackets st.brackets.toNat { st with inString := false } rfl he,
    foldl_scanStep_close_braces st.braces.toNat
      { st with inString := false, brackets := st.brackets - st.brackets.toNat } rfl he]
  simp [Int.toNat_of_nonneg hbr, Int.toNat_of_nonneg hbk]

/-- Witness for `repairTruncatedJSON_balanced` at the truncated text of
the counterexample. -/
theorem repairTruncatedJSON_balanced_witness :
    (scanJSON (repairTruncatedJSON (String.toList ("[\x7b\"a\":1")))).braces = 0 ∧
    (scanJSON (repairTruncatedJSON (String.toList ("[\x7b\"a\":1")))).brackets = 0 ∧
    (scanJSON (repairTruncatedJSON (String.toList ("[\x7b\"a\":1")))).inString = false :=
  repairTruncatedJSON_balanced (String.toList ("[\x7b\"a\":1"))
    (by decide) (by decide) (by decide)

/-- Case-insensitive test that `pat` (given lower-cased) occurs at the
head of `s`, modelling a JavaScript `/pat/gi` literal-string regex match
at the current position. -/
def matchesAtCI (pat s : List Char) : Bool :=
  decide (strLower (s.take pat.length) = pat)

/-- Global case-insensitive replacement of a literal pattern, where each
match consumes one boolean from the random stream `r` (index `i` counts
the draws already consumed) and is replaced by `ifTrue` or `ifFalse`.
This models `String.prototype.replace` with a `/literal/gi` regex and a
callback of the shape `Math.random() > 0.5 ? a : b`: leftmost matches,
non-overlapping, scanning left to right.  Fuel bounds the recursion; one
unit per consumed character suffices. -/
def replaceRandomCI (pat ifTrue ifFalse : List Char) (r : Nat → Bool) :
    Nat → Nat → List Char → List Char × Nat
  | 0, i, s => (s, i)
  | _ + 1, i, [] => ([], i)
  | fuel + 1, i, c :: rest =>
    if matchesAtCI pat (c :: rest) then
      let tail := replaceRandomCI pat ifTrue ifFalse r fuel (i + 1) ((c :: rest).drop pat.length)
      ((if r i then ifTrue else ifFalse) ++ tail.1, tail.2)
    else
      let tail := replaceRandomCI pat ifTrue ifFalse r fuel i rest
      (c :: tail.1, tail.2)

/-- One replacement pass over a whole text. -/
def replacePass (pat ifTrue ifFalse : List Char) (r : Nat → Bool) (i : Nat)
    (s : List Char) : List Char × Nat :=
  replaceRandomCI pat ifTrue ifFalse r (s.length + 1) i s

/-- Embedding of `postProcessContent` (src/src/generators/article.js,
lines 109-126): five sequential case-insensitive replacements, each match
replaced by one of two synonyms chosen by a fresh `Math.random()` draw.
The draws are made explicit as the boolean stream `r` (`r n` answers the
`n`-th call of `Math.random() > 0.5`); the JavaScript function takes only
the content and samples the stream implicitly. -/
def postProcessContent (r : Nat → Bool) (content : List Char) : List Char :=
  let p1 := replacePass (String.toList ("très important"))
    (String.toList ("crucial")) (String.toList ("essentiel")) r 0 content
  let p2 := replacePass (String.toList ("il est important de noter"))
    (String.toList ("à noter")) (String.toList ("point important")) r p1.2 p1.1
  let p3 := replacePass (String.toList ("en conclusion"))
    (String.toList ("pour conclure")) (String.toList ("en définitive")) r p2.2 p2.1
  let p4 := replacePass (String.toList ("de plus en plus"))
    (String.toList ("toujours plus")) (String.toList ("de plus en plus")) r p3.2 p3.1
  let p5 := replacePass (String.toList ("il faut"))
    (String.toList ("on doit")) (String.toList ("il convient de")) r p4.2 p4.1
  p5.1

/-- Claim C4, counterexample.  `postProcessContent` of article.js consults
`Math.random()` for each synonym substitution: on the input
`très important` a run whose draws answer true produces `crucial` while a
run whose draws answer false produces `essentiel`, so two runs on the same
input need not produce identical output — the post-processing step of
article.js is not deterministic. -/
theorem postProcessContent_random_counterexample :
    postProcessContent (fun _ => true) (String.toList ("très important")) =
      String.toList ("crucial") ∧
    postProcessContent (fun _ => false) (String.toList ("très important")) =
      String.toList ("essentiel") ∧
    postProcessContent (fun _ => true) (String.toList ("très important")) ≠
      postProcessContent (fun _ => false) (String.toList ("très important")) := by
  refine ⟨by decide, by decide, by decide⟩

/-- Claim C4, amended.  The article.js `postProcessContent` is a pure
local text transformation of the input text TOGETHER WITH the sequence of
`Math.random()` draws: two runs on the same input produce identical output
whenever their random draws agree (in particular the translator.js
variant, which makes no draw at all, is deterministic; the article.js
variant is not, as the counterexample shows). -/
theorem postProcessContent_deterministic_given_draws
    (content : List Char) (r₁ r₂ : Nat → Bool) (h : ∀ n, r₁ n = r₂ n) :
    postProcessContent r₁ content = postProcessContent r₂ content := by
  have hr : r₁ = r₂ := funext h
  rw [hr]

/-- Witness for `postProcessContent_deterministic_given_draws` on a
concrete text and stream. -/
theorem postProcessContent_deterministic_given_draws_witness :
    postProcessContent (fun _ => true) (String.toList ("très important")) =
      postProcessContent (fun n => n = n) (String.toList ("très important")) :=
  postProcessContent_deterministic_given_draws (String.toList ("très important"))
    (fun _ => true) (fun n => n = n) (fun n => by simp)

/-- Embedding of JavaScript `slice(0, stop)` on a text, including the
negative-index convention (a negative stop counts from the end). -/
def jsSliceTo (l : List Char) (stop : Int) : List Char :=
  if 0 ≤ stop then l.take stop.toNat
  else l.take (l.length - (-stop).toNat)

/-- Embedding of `truncateText` (src/src/utils/helpers.js, lines 32-35):
texts within the limit pass through; longer texts are cut to
`maxLength - suffix.length`, trimmed, and the suffix appended. -/
def truncateText (text : List Char) (maxLength : Nat)
    (suffix : List Char := String.toList ("...")) : List Char :=
  if text.length ≤ maxLength then text
  else jsTrim (jsSliceTo text ((maxLength : Int) - suffix.length)) ++ suffix

/-- Split a text on commas, as JavaScript `split(',')`: the empty text
yields one empty piece. -/
def splitComma : List Char → List (List Char)
  | [] => [[]]
  | c :: rest =>
    match splitComma rest with
    | [] => [[c]]
    | h :: t => if c = ',' then [] :: h :: t else (c :: h) :: t

/-- Join pieces with `, `, as JavaScript `join(', ')`. -/
def joinComma (pieces : List (List Char)) : List Char :=
  (pieces.intersperse (String.toList (", "))).flatten

/-- Normalization applied to keyword lists in `validateAndAdjustSEO`:
trim, lower-case, drop empties, keep at most 8, comma-join. -/
def normalizeKeywordList (ks : List (List Char)) : List Char :=
  joinComma ((((ks.map (fun k => strLower (jsTrim k))).filter
    (fun k => k ≠ [])).take 8))

/-- Value of the model-returned `keywords` field: the model sometimes
returns a comma-joined string, sometimes a list, sometimes something
else. -/
inductive KeywordsVal where
  | str (s : List Char)
  | list (l : List (List Char))
  | other

/-- Value of the model-returned `tags` field. -/
inductive TagsVal where
  | str (s : List Char)
  | list (l : List (List Char))
  | other

/-- Model-returned SEO metadata before validation (`seo` argument of
`validateAndAdjustSEO`); `none` models an absent field. -/
structure SeoGen where
  metaTitle : Option (List Char)
  metaDescription : Option (List Char)
  excerpt : Option (List Char)
  keywords : KeywordsVal
  tags : TagsVal

/-- Article fields consulted by `validateAndAdjustSEO`. -/
structure SeoArticle where
  title : List Char
  content : Option (List Char)

/-- SEO metadata after validation. -/
structure SeoOut where
  metaTitle : List Char
  metaDescription : List Char
  excerpt : List Char
  keywords : List Char
  tags : List (List Char)

/-- MetaTitle adjustment of `validateAndAdjustSEO`: synthesize from the
article title when absent or shorter than 10 characters (the JavaScript
falsiness test `!x` together with `length < 10` reduces to these cases),
truncate when above 60. -/
def adjustMetaTitle (mt : Option (List Char)) (title : List Char) : List Char :=
  match mt with
  | none => truncateText title 60
  | some s =>
    if s.length < 10 then truncateText title 60
    else if 60 < s.length then truncateText s 60
    else s

/-- Content fallback text of `validateAndAdjustSEO`: the article content
with markdown punctuation removed (`replace(/[#*_\[\]]/g, say nothing)`),
cut to 200 characters; an absent content gives the empty text. -/
def strippedContentOf (content : Option (List Char)) : List Char :=
  match content with
  | none => []
  | some c => (c.filter (fun ch =>
      ¬ (ch = '#' ∨ ch = '*' ∨ ch = '_' ∨ ch = '[' ∨ ch = ']'))).take 200

/-- MetaDescription adjustment of `validateAndAdjustSEO`. -/
def adjustMetaDescription (md : Option (List Char)) (stripped : List Char) : List Char :=
  match md with
  | none => truncateText stripped 160
  | some s =>
    if s.length < 50 then truncateText stripped 160
    else if 160 < s.length then truncateText s 160
    else s

/-- Excerpt adjustment of `validateAndAdjustSEO`: default to the adjusted
metaDescription when absent or shorter than 50 characters. -/
def adjustExcerpt (ex : Option (List Char)) (metaDescription : List Char) : List Char :=
  match ex with
  | none => metaDescription
  | some s =>
    if s.length < 50 then metaDescription
    else if 200 < s.length then truncateText s 200
    else s

/-- Keywords normalization of `validateAndAdjustSEO`: strings are split on
commas, lists taken as-is, anything else becomes empty. -/
def adjustKeywords (kw : KeywordsVal) : List Char :=
  match kw with
  | .str s => normalizeKeywordList (splitComma s)
  | .list l => normalizeKeywordList l
  | .other => []

/-- Tags normalization of `validateAndAdjustSEO` before the final
`slice(0, 5)`. -/
def adjustTags (tg : TagsVal) : List (List Char) :=
  match tg with
  | .str s => ((splitComma s).map jsTrim).filter (fun t => t ≠ [])
  | .list l => l
  | .other => []

/-- Embedding of `validateAndAdjustSEO` (src/unnamed/part_000 — the file
src/generators/seo.js — lines 265-320), assembled from the per-field
adjustments above in the order of the source. -/
def validateAndAdjustSEO (seo : SeoGen) (article : SeoArticle) : SeoOut :=
  let metaTitle := adjustMetaTitle seo.metaTitle article.title
  let metaDescription :=
    adjustMetaDescription seo.metaDescription (strippedContentOf article.content)
  let excerpt := adjustExcerpt seo.excerpt metaDescription
  let keywords := adjustKeywords seo.keywords
  let tags := adjustTags seo.tags
  { metaTitle := metaTitle, metaDescription := metaDescription,
    excerpt := excerpt, keywords := keywords, tags := tags.take 5 }

/-- Trimming never lengthens a text. -/
theorem jsTrim_length_le (l : List Char) : (jsTrim l).length ≤ l.length := by
  unfold jsTrim
  calc ((l.dropWhile jsWhitespace).reverse.dropWhile jsWhitespace).reverse.length
      = ((l.dropWhile jsWhitespace).reverse.dropWhile jsWhitespace).length := by
        rw [List.length_reverse]
    _ ≤ (l.dropWhile jsWhitespace).reverse.length :=
        ((l.dropWhile jsWhitespace).reverse.dropWhile_sublist jsWhitespace).length_le
    _ = (l.dropWhile jsWhitespace).length := by rw [List.length_reverse]
    _ ≤ l.length := (l.dropWhile_sublist jsWhitespace).length_le

/-- The truncation helper respects its limit whenever the suffix fits in
the limit (in the repository it is called with limits 60, 160 and 200 and
the three-character suffix). -/
theorem truncateText_length_le (text : List Char) (maxLength : Nat)
    (suffix : List Char) (h : suffix.length ≤ maxLength) :
    (truncateText text maxLength suffix).length ≤ maxLength := by
  unfold truncateText
  split
  · assumption
  · rw [List.length_append]
    have hstop : (0 : Int) ≤ (maxLength : Int) - suffix.length := by
      omega
    have hslice : (jsSliceTo text ((maxLength : Int) - suffix.length)).length ≤
        maxLength - suffix.length := by
      unfold jsSliceTo
      rw [if_pos hstop]
      calc (text.take ((maxLength : Int) - suffix.length).toNat).length
          ≤ ((maxLength : Int) - suffix.length).toNat := List.length_take_le _ _
        _ = maxLength - suffix.length := by omega
    have htrim := jsTrim_length_le (jsSliceTo text ((maxLength : Int) - suffix.length))
    omega

/-- Every piece of a normalized keyword list is a nonempty lower-cased
trimmed version of one of the raw pieces, and at most 8 survive. -/
theorem normalizeKeywordList_spec (ks : List (List Char)) :
    ∃ ts, normalizeKeywordList ks = joinComma ts ∧ ts.length ≤ 8 ∧
      ∀ t ∈ ts, t ≠ [] ∧ ∃ src ∈ ks, t = strLower (jsTrim src) := by
  unfold normalizeKeywordList
  refine ⟨_, rfl, List.length_take_le _ _, ?_⟩
  intro t ht
  have ht1 := List.mem_of_mem_take ht
  have ht2 := List.of_mem_filter ht1
  have ht3 := List.mem_of_mem_filter ht1
  refine ⟨by simpa using ht2, ?_⟩
  obtain ⟨src, hsrc, rfl⟩ := List.mem_map.mp ht3
  exact ⟨src, hsrc, rfl⟩

/-- Adjusted metaTitle never exceeds 60 characters. -/
theorem adjustMetaTitle_length_le (mt : Option (List Char)) (title : List Char) :
    (adjustMetaTitle mt title).length ≤ 60 := by
  unfold adjustMetaTitle
  match mt with
  | none => exact truncateText_length_le _ _ _ (by decide)
  | some s =>
    dsimp only
    split
    · exact truncateText_length_le _ _ _ (by decide)
    · split
      · exact truncateText_length_le _ _ _ (by decide)
      · omega

/-- Adjusted metaDescription never exceeds 160 characters. -/
theorem adjustMetaDescription_length_le (md : Option (List Char)) (stripped : List Char) :
    (adjustMetaDescription md stripped).length ≤ 160 := by
  unfold adjustMetaDescription
  match md with
  | none => exact truncateText_length_le _ _ _ (by decide)
  | some s =>
    dsimp only
    split
    · exact truncateText_length_le _ _ _ (by decide)
    · split
      · exact truncateText_length_le _ _ _ (by decide)
      · omega

/-- Adjusted excerpt never exceeds 200 characters, given the adjusted
metaDescription it may default to is itself within 160. -/
theorem adjustExcerpt_length_le (ex : Option (List Char)) (metaDescription : List Char)
    (h : metaDescription.length ≤ 160) :
    (adjustExcerpt ex metaDescription).length ≤ 200 := by
  unfold adjustExcerpt
  match ex with
  | none => show metaDescription.length ≤ 200; omega
  | some s =>
    dsimp only
    split
    · omega
    · split
      · exact truncateText_length_le _ _ _ (by decide)
      · omega

/-- Claim C5.  Bounds and defaulting behaviour of the SEO metadata after
`validateAndAdjustSEO`: metaTitle at most 60 characters and synthesized
from the article title when absent or shorter than 10; metaDescription at
most 160 and synthesized from the stripped content when absent or shorter
than 50; excerpt at most 200 and defaulting to the metaDescription when
absent or shorter than 50; keywords a comma-joined list of at most 8
nonempty lower-cased trimmed terms whether the model returned a string or
a list; at most 5 tags. -/
theorem validateAndAdjustSEO_spec (seo : SeoGen) (article : SeoArticle) :
    (validateAndAdjustSEO seo article).metaTitle.length ≤ 60 ∧
    ((seo.metaTitle = none ∨ ∃ s, seo.metaTitle = some s ∧ s.length < 10) →
      (validateAndAdjustSEO seo article).metaTitle = truncateText article.title 60) ∧
    (validateAndAdjustSEO seo article).metaDescription.length ≤ 160 ∧
    ((seo.metaDescription = none ∨ ∃ s, seo.metaDescription = some s ∧ s.length < 50) →
      (validateAndAdjustSEO seo article).metaDescription =
        truncateText (strippedContentOf article.content) 160) ∧
    (validateAndAdjustSEO seo article).excerpt.length ≤ 200 ∧
    ((seo.excerpt = none ∨ ∃ s, seo.excerpt = some s ∧ s.length < 50) →
      (validateAndAdjustSEO seo article).excerpt =
        (validateAndAdjustSEO seo article).metaDescription) ∧
    (∃ ts, (validateAndAdjustSEO seo article).keywords = joinComma ts ∧
      ts.length ≤ 8 ∧ ∀ t ∈ ts, t ≠ [] ∧ ∃ src, t = strLower (jsTrim src)) ∧
    (validateAndAdjustSEO seo article).tags.length ≤ 5 := by
  simp only [validateAndAdjustSEO]
  refine ⟨adjustMetaTitle_length_le _ _, ?_, adjustMetaDescription_length_le _ _, ?_,
    adjustExcerpt_length_le _ _ (adjustMetaDescription_length_le _ _), ?_, ?_, ?_⟩
  · rintro (hnone | ⟨s, hsome, hlen⟩)
    · rw [hnone]; rfl
    · rw [hsome]
      show (if s.length < 10 then truncateText article.title 60
        else if 60 < s.length then truncateText s 60 else s) = truncateText article.title 60
      rw [if_pos hlen]
  · rintro (hnone | ⟨s, hsome, hlen⟩)
    · rw [hnone]; rfl
    · rw [hsome]
      show (if s.length < 50 then truncateText (strippedContentOf article.content) 160
        else if 160 < s.length then truncateText s 160 else s) =
        truncateText (strippedContentOf article.content) 160
      rw [if_pos hlen]
  · rintro (hnone | ⟨s, hsome, hlen⟩)
    · rw [hnone]; rfl
    · rw [hsome]
      show (if s.length < 50 then
          adjustMetaDescription seo.metaDescription (strippedContentOf article.content)
        else if 200 < s.length then truncateText s 200 else s) =
        adjustMetaDescription seo.metaDescription (strippedContentOf article.content)
      rw [if_pos hlen]
  · match hkw : seo.keywords with
    | .str s =>
      obtain ⟨ts, h1, h2, h3⟩ := normalizeKeywordList_spec (splitComma s)
      exact ⟨ts, h1, h2, fun t ht =>
        ⟨(h3 t ht).1, (h3 t ht).2.elim (fun src h => ⟨src, h.2⟩)⟩⟩
    | .list l =>
      obtain ⟨ts, h1, h2, h3⟩ := normalizeKeywordList_spec l
      exact ⟨ts, h1, h2, fun t ht =>
        ⟨(h3 t ht).1, (h3 t ht).2.elim (fun src h => ⟨src, h.2⟩)⟩⟩
    | .other => exact ⟨[], rfl, by decide, by simp⟩
  · exact List.length_take_le _ _

/-- Witness for `validateAndAdjustSEO_spec`: a model response with an
absent metaTitle, a short excerpt and list-shaped keywords. -/
theorem validateAndAdjustSEO_spec_witness :
    (validateAndAdjustSEO
        ⟨none, some (String.toList ("court")),
          some (String.toList ("short")),
          KeywordsVal.list [String.toList (" Vue "), String.toList ("REACT")],
          TagsVal.list [String.toList ("web")]⟩
        ⟨String.toList ("Ce que Vue change pour le front en 2026"), none⟩).metaTitle =
      truncateText (String.toList ("Ce que Vue change pour le front en 2026")) 60 ∧
    (validateAndAdjustSEO
        ⟨none, some (String.toList ("court")),
          some (String.toList ("short")),
          KeywordsVal.list [String.toList (" Vue "), String.toList ("REACT")],
          TagsVal.list [String.toList ("web")]⟩
        ⟨String.toList ("Ce que Vue change pour le front en 2026"), none⟩).metaDescription =
      truncateText (strippedContentOf none) 160 ∧
    (validateAndAdjustSEO
        ⟨none, some (String.toList ("court")),
          some (String.toList ("short")),
          KeywordsVal.list [String.toList (" Vue "), String.toList ("REACT")],
          TagsVal.list [String.toList ("web")]⟩
        ⟨String.toList ("Ce que Vue change pour le front en 2026"), none⟩).tags.length ≤ 5 := by
  have h := validateAndAdjustSEO_spec
    ⟨none, some (String.toList ("court")),
      some (String.toList ("short")),
      KeywordsVal.list [String.toList (" Vue "), String.toList ("REACT")],
      TagsVal.list [String.toList ("web")]⟩
    ⟨String.toList ("Ce que Vue change pour le front en 2026"), none⟩
  exact ⟨h.2.1 (Or.inl rfl),
    h.2.2.2.1 (Or.inr ⟨String.toList ("court"), rfl, by decide⟩),
    h.2.2.2.2.2.2.2⟩

/-- Embedding of the title dimension of `analyzeSEOScore`
(src/unnamed/part_000 — the file src/generators/seo.js — lines 337-349):
an empty title is falsy and leaves the initial score 0; otherwise the
length is bucketed 20 / 15 / 10 with both ends of each range included. -/
def titleScore (title : List Char) : Nat :=
  if title = [] then 0
  else if 30 ≤ title.length ∧ title.length ≤ 70 then 20
  else if 20 ≤ title.length ∧ title.length ≤ 80 then 15
  else 10

/-- Claim C6.  The title dimension buckets are inclusive on both ends:
lengths 30 and 70 score 20; lengths 29 and 71 (inside [20,80]) score 15;
lengths 19 and 81 score 10. -/
theorem titleScore_boundaries (title : List Char) :
    ((title.length = 30 ∨ title.length = 70) → titleScore title = 20) ∧
    ((title.length = 29 ∨ title.length = 71) → titleScore title = 15) ∧
    ((title.length = 19 ∨ title.length = 81) → titleScore title = 10) := by
  have hne : ∀ n, title.length = n → n ≠ 0 → title ≠ [] := by
    intro n h hn
    cases title with
    | nil => simp at h; omega
    | cons a l => simp
  unfold titleScore
  refine ⟨?_, ?_, ?_⟩
  · rintro (h | h) <;>
      rw [if_neg (by simpa using hne _ h (by omega)), if_pos (by omega)]
  · rintro (h | h) <;>
      rw [if_neg (by simpa using hne _ h (by omega)), if_neg (by omega), if_pos (by omega)]
  · rintro (h | h) <;>
      rw [if_neg (by simpa using hne _ h (by omega)), if_neg (by omega), if_neg (by omega)]

/-- Witness for `titleScore_boundaries` at concrete lengths 30, 71
and 81. -/
theorem titleScore_boundaries_witness :
    titleScore (List.replicate 30 't') = 20 ∧
    titleScore (List.replicate 71 't') = 15 ∧
    titleScore (List.replicate 81 't') = 10 :=
  ⟨(titleScore_boundaries (List.replicate 30 't')).1 (Or.inl (by simp)),
   (titleScore_boundaries (List.replicate 71 't')).2.1 (Or.inr (by simp)),
   (titleScore_boundaries (List.replicate 81 't')).2.2 (Or.inr (by simp))⟩

/-- Candidate slugs probed by `generateUniqueSlug`: the base slug itself,
then `base-1`, `base-2`, and so on. -/
def slugCandidate (base : String) : Nat → String
  | 0 => base
  | n + 1 => base ++ "-" ++ toString (n + 1)

/-- Probe loop of `generateUniqueSlug` (src/src/services/trends.js — the
concatenated src/services/database.js — lines 528-538): while the current
candidate exists in the store, move to `base-counter` and increment the
counter.  The store is modelled as the list of slugs present in the
database, `slugExists` as membership.  The JavaScript `while` loop has no
bound; the fuel argument caps the number of probes and is chosen by
`generateUniqueSlug` large enough for any store that does not contain
every probed candidate. -/
def uniqueSlugLoop (store : List String) (base : String) :
    Nat → String → Nat → Option String
  | 0, _, _ => none
  | fuel + 1, slug, counter =>
    if slug ∈ store then
      uniqueSlugLoop store base fuel (base ++ "-" ++ toString counter) (counter + 1)
    else some slug

/-- Embedding of `generateUniqueSlug`: start from the base slug with the
counter at 1. -/
def generateUniqueSlug (store : List String) (base : String) : Option String :=
  uniqueSlugLoop store base (store.length + 1) base 1

/-- Unfolding lemma for the probe loop along the candidate sequence. -/
theorem uniqueSlugLoop_spec (store : List String) (base : String) :
    ∀ (k fuel i : Nat), k < fuel →
      (∀ j, j < k → slugCandidate base (i + j) ∈ store) →
      slugCandidate base (i + k) ∉ store →
      uniqueSlugLoop store base fuel (slugCandidate base i) (i + 1) =
        some (slugCandidate base (i + k)) := by
  intro k
  induction k with
  | zero =>
    intro fuel i hfuel _ hfree
    match fuel, hfuel with
    | fuel + 1, _ =>
      unfold uniqueSlugLoop
      rw [if_neg (by simpa using hfree)]
      simp
  | succ k ih =>
    intro fuel i hfuel hin hfree
    match fuel, hfuel with
    | fuel + 1, hfuel =>
      unfold uniqueSlugLoop
      rw [if_pos (by simpa using hin 0 (by omega))]
      have hnext : base ++ "-" ++ toString (i + 1) = slugCandidate base (i + 1) := rfl
      rw [hnext]
      have h2 := ih fuel (i + 1) (by omega)
        (fun j hj => by
          have := hin (j + 1) (by omega)
          simpa [Nat.add_assoc, Nat.add_comm 1 j] using this)
        (by
          have : i + 1 + k = i + (k + 1) := by omega
          rw [this]
          exact hfree)
      rw [show i + 1 + 1 = i + 2 by omega] at h2
      rw [show i + 1 + k = i + (k + 1) by omega] at h2
      exact h2

/-- Claim C7.  `generateUniqueSlug` returns the first candidate of
`base, base-1, base-2, …` that is not present in the store (the bound
`k ≤ store.length` expresses that the loop always has enough probes left:
since the earlier candidates are pairwise distinct members of the store,
the first free index can never exceed the store size). -/
theorem generateUniqueSlug_first_free (store : List String) (base : String)
    (k : Nat) (hk : k ≤ store.length)
    (hin : ∀ j, j < k → slugCandidate base j ∈ store)
    (hfree : slugCandidate base k ∉ store) :
    generateUniqueSlug store base = some (slugCandidate base k) := by
  unfold generateUniqueSlug
  have h := uniqueSlugLoop_spec store base k (store.length + 1) 0 (by omega)
    (fun j hj => by simpa using hin j hj) (by simpa using hfree)
  simpa [slugCandidate] using h

/-- Witness for `generateUniqueSlug_first_free`: with `foo` and `foo-1`
both taken, the slug `foo-2` is returned; with only `foo` taken, `foo-1`
is returned. -/
theorem generateUniqueSlug_first_free_witness :
    generateUniqueSlug [("foo"), ("foo-1")] ("foo") = some ("foo-2") ∧
    generateUniqueSlug [("foo")] ("foo") = some ("foo-1") :=
  ⟨generateUniqueSlug_first_free [("foo"), ("foo-1")] ("foo") 2 (by decide)
      (by decide) (by decide),
   generateUniqueSlug_first_free [("foo")] ("foo") 1 (by decide)
      (by decide) (by decide)⟩

/-- Failure raised by a translation completion call. -/
inductive TransError where
  | err (msg : String)
  deriving Repr, DecidableEq

/-- Oracle for `generateCompletion` as used by `translateText`: given the
text, the target locale and the source locale, the upstream call either
returns the translated text or throws. -/
def TextOracle := String → String → String → Except TransError String

/-- String-level trim reusing the character-level embedding. -/
def jsTrimStr (s : String) : String := String.mk (jsTrim s.toList)

/-- Embedding of `translateText` (src/src/generators/translator.js,
lines 48-65).  The result is paired with the number of completion calls
performed (0 for the two early returns, 1 otherwise): the JavaScript
falsy test `!text` together with `text.trim().length === 0` is exactly
the emptiness of the trimmed text. -/
def translateText (o : TextOracle) (text targetLocale sourceLocale : String) :
    Except TransError String × Nat :=
  if jsTrim text.toList = [] then (.ok text, 0)
  else if targetLocale = sourceLocale then (.ok text, 0)
  else match o text targetLocale sourceLocale with
    | .ok t => (.ok (jsTrimStr t), 1)
    | .error e => (.error e, 1)

/-- Claim C8.  Translating into the source locale is a no-op: the input
text comes back unchanged and no completion call is made (either the
empty-text early return or the same-locale early return fires, both with
zero calls). -/
theorem translateText_same_locale_noop (o : TextOracle) (text locale : String) :
    translateText o text locale locale = (.ok text, 0) := by
  unfold translateText
  split
  · rfl
  · rw [if_pos rfl]

/-- Witness for `translateText_same_locale_noop` on a concrete text. -/
theorem translateText_same_locale_noop_witness :
    translateText (fun _ _ _ => .error (.err ("offline"))) ("Bonjour tout le monde")
      ("fr") ("fr") = (.ok ("Bonjour tout le monde"), 0) :=
  translateText_same_locale_noop _ _ _

/-- Claim C10.  An empty or whitespace-only text is returned unchanged
with no completion call, even across different locales: the first early
return of `translateText` fires before the locale comparison. -/
theorem translateText_blank_noop (o : TextOracle) (text targetLocale sourceLocale : String)
    (h : jsTrim text.toList = []) :
    translateText o text targetLocale sourceLocale = (.ok text, 0) := by
  unfold translateText
  rw [if_pos h]

/-- Witness for `translateText_blank_noop`: three spaces, distinct
locales. -/
theorem translateText_blank_noop_witness :
    translateText (fun _ _ _ => .error (.err ("offline"))) ("   ") ("en") ("fr") =
      (.ok ("   "), 0) :=
  translateText_blank_noop _ _ _ _ (by decide)

/-- SEO block passed to and returned by `translateSEO`. -/
structure SeoT where
  metaTitle : String
  metaDescription : String
  keywords : String
  excerpt : String
  deriving Repr, DecidableEq

/-- Oracle for `generateJSON` as used by `translateSEO`. -/
def SeoOracle := SeoT → String → String → Except TransError SeoT

/-- Embedding of `translateSEO` (src/src/generators/translator.js,
lines 70-90): a same-locale call is a no-op, and any upstream failure is
caught, falling back to the untranslated SEO block; the call count is
returned alongside. -/
def translateSEO (o : SeoOracle) (seo : SeoT) (targetLocale sourceLocale : String) :
    SeoT × Nat :=
  if targetLocale = sourceLocale then (seo, 0)
  else match o seo targetLocale sourceLocale with
    | .ok j => (j, 1)
    | .error _ => (seo, 1)

/-- Full SEO record of an article. -/
structure ArticleSeo where
  metaTitle : String
  metaDescription : String
  keywords : String
  ogImage : Option String
  canonicalUrl : Option String
  noIndex : Bool

/-- Article record as consumed by the translator. -/
structure Article where
  title : String
  slug : String
  excerpt : String
  content : String
  coverImage : Option String
  seo : ArticleSeo
  status : String
  publishedAt : Option String
  tags : List String
  author : String
  readingTime : Nat

/-- Result of translating every field of an article into one locale. -/
structure LocaleResult where
  content : String
  title : String
  excerpt : String
  translatedSEO : SeoT

/-- Embedding of `translateArticleToLocale` (src/src/generators/
translator.js, lines 96-115): the three `translateText` sub-calls and the
`translateSEO` sub-call are joined by `Promise.all`, which fails as soon
as any sub-call fails — and `translateSEO` never fails, it falls back
internally. -/
def translateArticleToLocale (ot : TextOracle) (os : SeoOracle) (article : Article)
    (targetLocale sourceLocale : String) : Except TransError LocaleResult :=
  match (translateText ot article.content targetLocale sourceLocale).1 with
  | .error e => .error e
  | .ok content =>
    match (translateText ot article.title targetLocale sourceLocale).1 with
    | .error e => .error e
    | .ok title =>
      match (translateText ot article.excerpt targetLocale sourceLocale).1 with
      | .error e => .error e
      | .ok excerpt =>
        .ok ⟨content, title, excerpt,
          (translateSEO os
            ⟨article.seo.metaTitle, article.seo.metaDescription,
              article.seo.keywords, article.excerpt⟩
            targetLocale sourceLocale).1⟩

/-- Locale-indexed string field of a multilingual article. -/
def LocString := String → Option String

/-- Point update of a locale map, as the JavaScript assignment
`field[locale] = value`. -/
def updLoc (m : LocString) (locale : String) (v : String) : LocString :=
  fun x => if x = locale then some v else m x

/-- Locale map holding a single seeded entry, as the object literal
`| [sourceLocale]: value |`. -/
def seedLoc (locale : String) (v : String) : LocString :=
  fun x => if x = locale then some v else none

/-- Multilingual article in Payload shape: locale-sensitive fields are
locale maps, the rest is scalar. -/
structure MultilingualArticle where
  slug : String
  coverImage : Option String
  status : String
  publishedAt : Option String
  author : String
  readingTime : Nat
  title : LocString
  excerpt : LocString
  content : LocString
  seoMetaTitle : LocString
  seoMetaDescription : LocString
  seoKeywords : LocString
  seoOgImage : Option String
  seoCanonicalUrl : Option String
  seoNoIndex : Bool
  tags : List String

/-- The six per-locale assignments of the assembly loop of
`generateMultilingualArticle` for one locale. -/
def update6 (acc : MultilingualArticle) (locale : String) (v : LocaleResult) :
    MultilingualArticle :=
  { acc with
    title := updLoc acc.title locale v.title
    excerpt := updLoc acc.excerpt locale v.excerpt
    content := updLoc acc.content locale v.content
    seoMetaTitle := updLoc acc.seoMetaTitle locale v.translatedSEO.metaTitle
    seoMetaDescription := updLoc acc.seoMetaDescription locale v.translatedSEO.metaDescription
    seoKeywords := updLoc acc.seoKeywords locale v.translatedSEO.keywords }

/-- Values written for one locale by the assembly loop: the translated
values on success, verbatim copies of the source-locale values on
failure (the `else` branch of the loop). -/
def writtenValues (ot : TextOracle) (os : SeoOracle) (article : Article)
    (sourceLocale locale : String) : LocaleResult :=
  match translateArticleToLocale ot os article locale sourceLocale with
  | .ok r => r
  | .error _ =>
    ⟨article.content, article.title, article.excerpt,
      ⟨article.seo.metaTitle, article.seo.metaDescription,
        article.seo.keywords, article.excerpt⟩⟩

/-- Embedding of `generateMultilingualArticle` (src/src/generators/
translator.js, lines 121-184): seed every locale map with the source
locale, fan out `translateArticleToLocale` per target locale (each
failure caught inside the per-locale promise), then assemble: each locale
gets its translated values or, on failure, verbatim source copies.  The
caller passes the target locales (the JavaScript defaults to the
supported locales minus the source when given null). -/
def generateMultilingualArticle (ot : TextOracle) (os : SeoOracle) (article : Article)
    (sourceLocale : String) (locales : List String) : MultilingualArticle :=
  let base : MultilingualArticle :=
    { slug := article.slug
      coverImage := article.coverImage
      status := article.status
      publishedAt := article.publishedAt
      author := article.author
      readingTime := article.readingTime
      title := seedLoc sourceLocale article.title
      excerpt := seedLoc sourceLocale article.excerpt
      content := seedLoc sourceLocale article.content
      seoMetaTitle := seedLoc sourceLocale article.seo.metaTitle
      seoMetaDescription := seedLoc sourceLocale article.seo.metaDescription
      seoKeywords := seedLoc sourceLocale article.seo.keywords
      seoOgImage := article.seo.ogImage
      seoCanonicalUrl := article.seo.canonicalUrl
      seoNoIndex := article.seo.noIndex
      tags := article.tags }
  locales.foldl
    (fun acc locale => update6 acc locale (writtenValues ot os article sourceLocale locale))
    base

/-- Assembly fold leaves locales outside the target list untouched. -/
theorem foldl_update6_not_mem (v : String → LocaleResult) (locales : List String)
    (acc : MultilingualArticle) (x : String) (hx : x ∉ locales) :
    ((locales.foldl (fun a l => update6 a l (v l)) acc).title x = acc.title x) ∧
    ((locales.foldl (fun a l => update6 a l (v l)) acc).excerpt x = acc.excerpt x) ∧
    ((locales.foldl (fun a l => update6 a l (v l)) acc).content x = acc.content x) ∧
    ((locales.foldl (fun a l => update6 a l (v l)) acc).seoMetaTitle x = acc.seoMetaTitle x) ∧
    ((locales.foldl (fun a l => update6 a l (v l)) acc).seoMetaDescription x
      = acc.seoMetaDescription x) ∧
    ((locales.foldl (fun a l => update6 a l (v l)) acc).seoKeywords x = acc.seoKeywords x) := by
  induction locales generalizing acc with
  | nil => simp
  | cons l ls ih =>
    have hxl : x ≠ l := fun h => hx (by simp [h])
    have hxls : x ∉ ls := fun h => hx (by simp [h])
    rw [List.foldl_cons]
    have h2 := ih (update6 acc l (v l)) hxls
    simpa [update6, updLoc, hxl] using h2

/-- Assembly fold stores, for every locale of the target list, exactly the
values chosen for that locale. -/
theorem foldl_update6_mem (v : String → LocaleResult) (locales : List String)
    (acc : MultilingualArticle) (x : String) (hx : x ∈ locales) :
    ((locales.foldl (fun a l => update6 a l (v l)) acc).title x = some (v x).title) ∧
    ((locales.foldl (fun a l => update6 a l (v l)) acc).excerpt x = some (v x).excerpt) ∧
    ((locales.foldl (fun a l => update6 a l (v l)) acc).content x = some (v x).content) ∧
    ((locales.foldl (fun a l => update6 a l (v l)) acc).seoMetaTitle x
      = some (v x).translatedSEO.metaTitle) ∧
    ((locales.foldl (fun a l => update6 a l (v l)) acc).seoMetaDescription x
      = some (v x).translatedSEO.metaDescription) ∧
    ((locales.foldl (fun a l => update6 a l (v l)) acc).seoKeywords x
      = some (v x).translatedSEO.keywords) := by
  induction locales generalizing acc with
  | nil => simp at hx
  | cons l ls ih =>
    rw [List.foldl_cons]
    by_cases hmem : x ∈ ls
    · exact ih (update6 acc l (v l)) hmem
    · have hxl : x = l := by
        rcases List.mem_cons.mp hx with h | h
        · exact h
        · exact absurd h hmem
      subst hxl
      have h2 := foldl_update6_not_mem v ls (update6 acc x (v x)) x hmem
      simpa [update6, updLoc] using h2

/-- The per-locale translation fails exactly when one of its three
`translateText` sub-calls fails (`translateSEO` never fails — it falls
back internally). -/
theorem translateArticleToLocale_error_iff (ot : TextOracle) (os : SeoOracle)
    (article : Article) (targetLocale sourceLocale : String) :
    (∃ e, translateArticleToLocale ot os article targetLocale sourceLocale = .error e) ↔
    (∃ e, (translateText ot article.content targetLocale sourceLocale).1 = .error e ∨
      (translateText ot article.title targetLocale sourceLocale).1 = .error e ∨
      (translateText ot article.excerpt targetLocale sourceLocale).1 = .error e) := by
  unfold translateArticleToLocale
  rcases h1 : (translateText ot article.content targetLocale sourceLocale).1 with e1 | v1 <;>
    rcases h2 : (translateText ot article.title targetLocale sourceLocale).1 with e2 | v2 <;>
      rcases h3 : (translateText ot article.excerpt targetLocale sourceLocale).1
          with e3 | v3 <;>
        simp

/-- Fields of the assembled multilingual article at any target locale are
the values chosen for that locale (translated on success, source copies
on failure). -/
theorem generateMultilingualArticle_written (ot : TextOracle) (os : SeoOracle)
    (article : Article) (sourceLocale : String) (locales : List String) (l : String)
    (hl : l ∈ locales) :
    ((generateMultilingualArticle ot os article sourceLocale locales).title l
      = some (writtenValues ot os article sourceLocale l).title) ∧
    ((generateMultilingualArticle ot os article sourceLocale locales).excerpt l
      = some (writtenValues ot os article sourceLocale l).excerpt) ∧
    ((generateMultilingualArticle ot os article sourceLocale locales).content l
      = some (writtenValues ot os article sourceLocale l).content) ∧
    ((generateMultilingualArticle ot os article sourceLocale locales).seoMetaTitle l
      = some (writtenValues ot os article sourceLocale l).translatedSEO.metaTitle) ∧
    ((generateMultilingualArticle ot os article sourceLocale locales).seoMetaDescription l
      = some (writtenValues ot os article sourceLocale l).translatedSEO.metaDescription) ∧
    ((generateMultilingualArticle ot os article sourceLocale locales).seoKeywords l
      = some (writtenValues ot os article sourceLocale l).translatedSEO.keywords) := by
  unfold generateMultilingualArticle
  exact foldl_update6_mem _ locales _ l hl

/-- Claim C2.  In `generateMultilingualArticle`, each target locale is
isolated: a locale whose sub-calls all succeed is populated with its
translated values, a locale where any sub-call throws falls back to
verbatim source-locale copies of title, excerpt, content and the three
translated SEO fields, and no failure escapes (the function is total and
assembles every locale either way).  The last conjunct characterizes a
locale failure in terms of its individual sub-calls. -/
theorem generateMultilingualArticle_locale_isolation (ot : TextOracle) (os : SeoOracle)
    (article : Article) (sourceLocale : String) (locales : List String) (l : String)
    (hl : l ∈ locales) :
    (∀ r, translateArticleToLocale ot os article l sourceLocale = .ok r →
      ((generateMultilingualArticle ot os article sourceLocale locales).title l = some r.title ∧
       (generateMultilingualArticle ot os article sourceLocale locales).excerpt l
         = some r.excerpt ∧
       (generateMultilingualArticle ot os article sourceLocale locales).content l
         = some r.content ∧
       (generateMultilingualArticle ot os article sourceLocale locales).seoMetaTitle l
         = some r.translatedSEO.metaTitle ∧
       (generateMultilingualArticle ot os article sourceLocale locales).seoMetaDescription l
         = some r.translatedSEO.metaDescription ∧
       (generateMultilingualArticle ot os article sourceLocale locales).seoKeywords l
         = some r.translatedSEO.keywords)) ∧
    (∀ e, translateArticleToLocale ot os article l sourceLocale = .error e →
      ((generateMultilingualArticle ot os article sourceLocale locales).title l
         = some article.title ∧
       (generateMultilingualArticle ot os article sourceLocale locales).excerpt l
         = some article.excerpt ∧
       (generateMultilingualArticle ot os article sourceLocale locales).content l
         = some article.content ∧
       (generateMultilingualArticle ot os article sourceLocale locales).seoMetaTitle l
         = some article.seo.metaTitle ∧
       (generateMultilingualArticle ot os article sourceLocale locales).seoMetaDescription l
         = some article.seo.metaDescription ∧
       (generateMultilingualArticle ot os article sourceLocale locales).seoKeywords l
         = some article.seo.keywords)) ∧
    ((∃ e, translateArticleToLocale ot os article l sourceLocale = .error e) ↔
      (∃ e, (translateText ot article.content l sourceLocale).1 = .error e ∨
        (translateText ot article.title l sourceLocale).1 = .error e ∨
        (translateText ot article.excerpt l sourceLocale).1 = .error e)) := by
  have hmem := generateMultilingualArticle_written ot os article sourceLocale locales l hl
  refine ⟨?_, ?_, translateArticleToLocale_error_iff ot os article l sourceLocale⟩
  · intro r hr
    have hw : writtenValues ot os article sourceLocale l = r := by
      unfold writtenValues
      rw [hr]
    rw [hw] at hmem
    exact hmem
  · intro e he
    have hw : writtenValues ot os article sourceLocale l =
        ⟨article.content, article.title, article.excerpt,
          ⟨article.seo.metaTitle, article.seo.metaDescription,
            article.seo.keywords, article.excerpt⟩⟩ := by
      unfold writtenValues
      rw [he]
    rw [hw] at hmem
    exact ⟨hmem.1, hmem.2.1, hmem.2.2.1, hmem.2.2.2.1, hmem.2.2.2.2.1, hmem.2.2.2.2.2⟩

/-- Concrete article for the locale-isolation witness. -/
def wArticle : Article :=
  { title := "Titre de test"
    slug := "titre-de-test"
    excerpt := "Un extrait de test"
    content := "Contenu de test"
    coverImage := none
    seo :=
      { metaTitle := "Meta titre"
        metaDescription := "Meta description de test"
        keywords := "mots, cles"
        ogImage := none
        canonicalUrl := none
        noIndex := false }
    status := "draft"
    publishedAt := none
    tags := []
    author := "Gleeam"
    readingTime := 3 }

/-- Concrete text oracle: translation into Spanish throws, every other
call appends a marker. -/
def wTextOracle : TextOracle := fun text target _ =>
  if target = "es" then Except.error (TransError.err ("down"))
  else Except.ok (text ++ "!")

/-- Concrete SEO oracle: echoes its input. -/
def wSeoOracle : SeoOracle := fun seo _ _ => Except.ok seo

/-- Witness for `generateMultilingualArticle_locale_isolation`: with the
Spanish sub-calls throwing and the English ones succeeding, English gets
translated values and Spanish gets verbatim source copies. -/
theorem generateMultilingualArticle_locale_isolation_witness :
    ((generateMultilingualArticle wTextOracle wSeoOracle wArticle ("fr")
        [("en"), ("es")]).title ("es") = some ("Titre de test") ∧
     (generateMultilingualArticle wTextOracle wSeoOracle wArticle ("fr")
        [("en"), ("es")]).content ("es") = some ("Contenu de test") ∧
     (generateMultilingualArticle wTextOracle wSeoOracle wArticle ("fr")
        [("en"), ("es")]).seoMetaTitle ("es") = some ("Meta titre")) ∧
    ((generateMultilingualArticle wTextOracle wSeoOracle wArticle ("fr")
        [("en"), ("es")]).title ("en") = some ("Titre de test!") ∧
     (generateMultilingualArticle wTextOracle wSeoOracle wArticle ("fr")
        [("en"), ("es")]).content ("en") = some ("Contenu de test!")) := by
  have hes := generateMultilingualArticle_locale_isolation wTextOracle wSeoOracle wArticle
    ("fr") [("en"), ("es")] ("es") (by simp)
  have hen := generateMultilingualArticle_locale_isolation wTextOracle wSeoOracle wArticle
    ("fr") [("en"), ("es")] ("en") (by simp)
  have hfail := hes.2.1 (TransError.err ("down")) rfl
  have hok := hen.1
    ⟨"Contenu de test!", "Titre de test!", "Un extrait de test!",
      ⟨"Meta titre", "Meta description de test", "mots, cles", "Un extrait de test"⟩⟩
    rfl
  exact ⟨⟨hfail.1, hfail.2.2.1, hfail.2.2.2.1⟩, ⟨hok.1, hok.2.2.1⟩⟩

/-- One upstream chat completion as `generateJSON` sees it: the finish
reason and the message content. -/
structure Completion where
  finishReason : String
  content : List Char

/-- Errors thrown by `generateJSON`: empty content after a length cutoff,
empty content otherwise, and invalid JSON carrying the 500-character
excerpt of the offending text that the code emits for diagnostics. -/
inductive GenError where
  | emptyAfterLength
  | emptyContent
  | invalidJSON (excerpt : List Char)

/-- Outcome of one attempt of `generateJSON` once no retry is taken
(cases 2 and 3 of the source): empty content raises the matching error;
otherwise the content — repaired first when the finish reason is
`length` — is parsed, and a parse failure raises `invalidJSON` with the
`content.slice(0, 500)` excerpt the code logs. -/
def attemptOutcome (c : Completion) : Except GenError Json :=
  if jsTrim c.content = [] then
    .error (if c.finishReason = "length" then .emptyAfterLength else .emptyContent)
  else
    match parseJson (if c.finishReason = "length" then repairTruncatedJSON c.content
      else c.content) with
    | some v => .ok v
    | none => .error (.invalidJSON (c.content.take 500))

/-- Retry loop of `generateJSON` (src/src/services/openai.js,
lines 143-219).  The oracle maps (attempt index, token budget) to the
upstream completion; the result is paired with the trace of token budgets
actually sent.  With retries left, a `length` finish reason doubles the
budget (capped at 16000) and retries before any parse is attempted
(case 1 of the source); therefore the parse-failure retry inside the
source's catch block, which also requires a `length` finish reason, is
unreachable and the non-retry branches reduce to `attemptOutcome`. -/
def genJSONLoop (oracle : Nat → Nat → Completion) :
    Nat → Nat → Nat → Except GenError Json × List Nat
  | attempt, maxTokens, 0 => (attemptOutcome (oracle attempt maxTokens), [maxTokens])
  | attempt, maxTokens, retriesLeft + 1 =>
    if (oracle attempt maxTokens).finishReason = "length" then
      let r := genJSONLoop oracle (attempt + 1) (min (maxTokens * 2) 16000) retriesLeft
      (r.1, maxTokens :: r.2)
    else
      (attemptOutcome (oracle attempt maxTokens), [maxTokens])

/-- Embedding of `generateJSON`: the budget starts at
`options.maxTokens ?? 4000` and at most 2 retries follow the first
attempt. -/
def generateJSON (oracle : Nat → Nat → Completion) (optMaxTokens : Option Nat) :
    Except GenError Json × List Nat :=
  genJSONLoop oracle 0 (optMaxTokens.getD 4000) 2

/-- The loop makes at most one call more than it has retries. -/
theorem genJSONLoop_length_le (oracle : Nat → Nat → Completion) :
    ∀ (n attempt m : Nat), (genJSONLoop oracle attempt m n).2.length ≤ n + 1 := by
  intro n
  induction n with
  | zero => intro attempt m; simp [genJSONLoop]
  | succ n ih =>
    intro attempt m
    unfold genJSONLoop
    split
    · have := ih (attempt + 1) (min (m * 2) 16000)
      simpa using Nat.succ_le_succ this
    · simp

/-- The first budget of the trace is the starting budget. -/
theorem genJSONLoop_head (oracle : Nat → Nat → Completion) (n attempt m : Nat) :
    (genJSONLoop oracle attempt m n).2.head? = some m := by
  cases n <;> unfold genJSONLoop <;> simp only []
  · rfl
  · split <;> rfl

/-- Consecutive budgets of the trace follow the doubling-with-cap rule. -/
theorem genJSONLoop_chain (oracle : Nat → Nat → Completion) :
    ∀ (n attempt m : Nat),
      List.Chain' (fun a b => b = min (a * 2) 16000) (genJSONLoop oracle attempt m n).2 := by
  intro n
  induction n with
  | zero => intro attempt m; simp [genJSONLoop]
  | succ n ih =>
    intro attempt m
    unfold genJSONLoop
    split
    · refine List.chain'_cons'.mpr ⟨?_, ih (attempt + 1) (min (m * 2) 16000)⟩
      intro y hy
      rw [genJSONLoop_head] at hy
      simpa using hy.symm
    · simp

/-- Claim C3.  `generateJSON` sends at most 3 requests (1 + at most 2
retries), the first with `options.maxTokens ?? 4000` tokens, each retry
doubling the budget capped at 16000; retries happen on a `length` finish
reason, and when every attempt is cut off and the final repaired content
still does not parse, the call fails with the invalid-JSON error carrying
the 500-character excerpt of the offending text. -/
theorem generateJSON_length_retry (oracle : Nat → Nat → Completion) (optMaxTokens : Option Nat) :
    (generateJSON oracle optMaxTokens).2.length ≤ 3 ∧
    (generateJSON oracle optMaxTokens).2.head? = some (optMaxTokens.getD 4000) ∧
    List.Chain' (fun a b => b = min (a * 2) 16000) (generateJSON oracle optMaxTokens).2 ∧
    ((oracle 0 (optMaxTokens.getD 4000)).finishReason = "length" →
     (oracle 1 (min (optMaxTokens.getD 4000 * 2) 16000)).finishReason = "length" →
     (oracle 2 (min (min (optMaxTokens.getD 4000 * 2) 16000 * 2) 16000)).finishReason
       = "length" →
     jsTrim (oracle 2 (min (min (optMaxTokens.getD 4000 * 2) 16000 * 2) 16000)).content ≠ [] →
     (parseJson (repairTruncatedJSON
       (oracle 2 (min (min (optMaxTokens.getD 4000 * 2) 16000 * 2) 16000)).content)).isNone
       = true →
     generateJSON oracle optMaxTokens =
       (.error (.invalidJSON
          ((oracle 2 (min (min (optMaxTokens.getD 4000 * 2) 16000 * 2) 16000)).content.take
            500)),
        [optMaxTokens.getD 4000, min (optMaxTokens.getD 4000 * 2) 16000,
          min (min (optMaxTokens.getD 4000 * 2) 16000 * 2) 16000])) := by
  refine ⟨genJSONLoop_length_le oracle 2 0 _, genJSONLoop_head oracle 2 0 _,
    genJSONLoop_chain oracle 2 0 _, ?_⟩
  intro h0 h1 h2 hcontent hparse
  set t0 := optMaxTokens.getD 4000 with ht0
  set t1 := min (t0 * 2) 16000 with ht1
  set t2 := min (t1 * 2) 16000 with ht2
  have hstep : generateJSON oracle optMaxTokens =
      (attemptOutcome (oracle 2 t2), [t0, t1, t2]) := by
    unfold generateJSON
    unfold genJSONLoop
    rw [if_pos h0]
    unfold genJSONLoop
    rw [if_pos h1]
    rfl
  rw [hstep]
  unfold attemptOutcome
  rw [if_neg hcontent, if_pos h2]
  rw [Option.isNone_iff_eq_none] at hparse
  rw [hparse]

/-- Witness for `generateJSON_length_retry`: every attempt is cut off
with the unparseable fragment, so the budgets run 4000, 8000, 16000 and
the call fails with the invalid-JSON error carrying the fragment. -/
theorem generateJSON_length_retry_witness :
    generateJSON (fun _ _ => ⟨"length", String.toList ("\x7b\"a\":")⟩) none =
      (.error (.invalidJSON (String.toList ("\x7b\"a\":"))), [4000, 8000, 16000]) := by
  have h := (generateJSON_length_retry
    (fun _ _ => ⟨"length", String.toList ("\x7b\"a\":")⟩) none).2.2.2
    rfl rfl rfl (by decide) (by decide)
  simpa using h

/-- Count of maximal non-whitespace runs of a text. -/
def runsCount (l : List Char) : Nat :=
  (l.foldl
    (fun (acc : Nat × Bool) c =>
      if jsWhitespace c then (acc.1, false)
      else (if acc.2 then acc.1 else acc.1 + 1, true))
    (0, false)).1

/-- Embedding of `estimateReadingTime` (src/src/utils/helpers.js,
lines 23-27): `ceil(words / 200)` where words counts the pieces of
`content.trim().split(/\s+/)` — the empty trimmed text still yields one
piece in JavaScript. -/
def estimateReadingTime (content : List Char) : Nat :=
  ((if jsTrim content = [] then 1 else runsCount (jsTrim content)) + 199) / 200

/-- Generation options consulted by the final assembly of
`generateArticle`. -/
structure GenOptions where
  autoPublish : Bool
  coverImage : Option String
  ogImage : Option String
  author : Option String

/-- Embedding of the final assembly step of `generateArticle`
(src/src/generators/translator.js lines 504-532 and the identical
src/src/generators/article.js lines 192-221): compose the article record;
`status` is `published` with `publishedAt := generatePublishDate()` under
`options.autoPublish`, else `draft` with a null `publishedAt`.  The
slugify library call and the current time are oracles; `options.author`
falls back to the default author. -/
def generateArticleAssembly (slugify : String → String) (now : String)
    (options : GenOptions) (title content : String) (seo : SeoT)
    (tags : List String) : Article :=
  { title := title
    slug := slugify title
    excerpt := seo.excerpt
    content := content
    coverImage := options.coverImage
    seo :=
      { metaTitle := seo.metaTitle
        metaDescription := seo.metaDescription
        keywords := seo.keywords
        ogImage := options.ogImage
        canonicalUrl := none
        noIndex := false }
    status := if options.autoPublish then ("published") else ("draft")
    publishedAt := if options.autoPublish then some now else none
    tags := tags
    author := options.author.getD ("Gleeam")
    readingTime := estimateReadingTime content.toList }

/-- Claim C9.  Every assembled article satisfies the invariant
`status = published ⇔ publishedAt set`: with `autoPublish` the status is
`published` and `publishedAt` carries the generation timestamp, without
it the status is `draft` and `publishedAt` is null. -/
theorem generateArticleAssembly_publish_invariant (slugify : String → String)
    (now : String) (options : GenOptions) (title content : String) (seo : SeoT)
    (tags : List String) :
    ((generateArticleAssembly slugify now options title content seo tags).status
        = "published" ↔
      (generateArticleAssembly slugify now options title content seo tags).publishedAt
        ≠ none) ∧
    (options.autoPublish = true →
      (generateArticleAssembly slugify now options title content seo tags).status
          = "published" ∧
      (generateArticleAssembly slugify now options title content seo tags).publishedAt
          = some now) ∧
    (options.autoPublish = false →
      (generateArticleAssembly slugify now options title content seo tags).status = "draft" ∧
      (generateArticleAssembly slugify now options title content seo tags).publishedAt
          = none) := by
  unfold generateArticleAssembly
  rcases h : options.autoPublish <;> simp [h]

/-- Witness for `generateArticleAssembly_publish_invariant` under
`autoPublish`. -/
theorem generateArticleAssembly_publish_invariant_witness :
    (generateArticleAssembly id ("2026-01-01T09:00:00.000Z")
        ⟨true, none, none, none⟩ ("Titre") ("Contenu") 
        ⟨"mt", "md", "kw", "ex"⟩ []).status = "published" ∧
    (generateArticleAssembly id ("2026-01-01T09:00:00.000Z")
        ⟨true, none, none, none⟩ ("Titre") ("Contenu")
        ⟨"mt", "md", "kw", "ex"⟩ []).publishedAt = some ("2026-01-01T09:00:00.000Z") :=
  (generateArticleAssembly_publish_invariant id ("2026-01-01T09:00:00.000Z")
    ⟨true, none, none, none⟩ ("Titre") ("Contenu") ⟨"mt", "md", "kw", "ex"⟩ []).2.1 rfl
